import Mathlib

/-!
# Host side of the OpenCL path tracer (main.cpp, gl_interop.h)

A shallow embedding of the host program: the interactive platform/device
pickers, the kernel-source loading loop, the scene initialiser, the per-frame
`render` routine with its work-size computation, and the `WangHash` seed mixer.

Conventions of the embedding.

* `unsigned int` is a `Nat` below `2 ^ 32`; every operation that can leave that
  range (`+`, `<<`, `*`, `++`) is followed by `% UINT_MOD`.
* `std::size_t` is a `Nat` below `2 ^ SIZE_BITS`; `int` is an `Int` between
  `INT_MIN` and `INT_MAX`.
* `cl_float` coordinates are exact rationals.
* Calls into OpenCL / OpenGL / GLUT are recorded, in program order, in an event
  log carried by the state.
* A result `none` means that the routine does not return normally (undefined
  behaviour, or a loop that is still running when the input or the fuel is used
  up).
-/

namespace PathTracer

/-! ## Machine integer types -/

/-- Number of values of a 32-bit `unsigned int`. -/
def UINT_MOD : Nat := 2 ^ 32

/-- Width in bits of `std::size_t`. -/
def SIZE_BITS : Nat := 64

/-- Number of values of `std::size_t`. -/
def SIZE_MOD : Nat := 2 ^ SIZE_BITS

/-- Largest value of `int`. -/
def INT_MAX : Int := 2 ^ 31 - 1

/-- Smallest value of `int`. -/
def INT_MIN : Int := -(2 ^ 31)

/-- Conversion of an `int` to `std::size_t` (reduction modulo `2 ^ SIZE_BITS`), as
applied by the usual arithmetic conversions when an `int` meets a `size_t`. -/
def toSizeT (x : Int) : Nat := (x % (SIZE_MOD : Int)).toNat

/-! ## Constants (gl_interop.h:7-8, main.cpp:17) -/

/-- The constant `window_width` of gl_interop.h. -/
def window_width : Int := 1280

/-- The constant `window_height` of gl_interop.h. -/
def window_height : Int := 720

/-- The constant `sphere_count` of main.cpp. -/
def sphere_count : Int := 9

/-! ## WangHash (main.cpp:291-298) -/

/-- The function `WangHash` of main.cpp on a 32-bit `unsigned int`. -/
def WangHash (a : Nat) : Nat :=
  let a := (a ^^^ 61) ^^^ (a >>> 16)
  let a := (a + (a <<< 3) % UINT_MOD) % UINT_MOD
  let a := a ^^^ (a >>> 4)
  let a := (a * 0x27d4eb2d) % UINT_MOD
  let a := a ^^^ (a >>> 15)
  a

/-! ## Scene data (main.cpp:42-53, 184-242) -/

/-- A `cl_float3`; the fields are the components `s[0]`, `s[1]`, `s[2]`. -/
structure Float3 where
  s0 : ℚ
  s1 : ℚ
  s2 : ℚ
deriving DecidableEq

/-- The struct `Sphere` of main.cpp. -/
structure Sphere where
  radius : ℚ
  dummy1 : ℚ
  dummy2 : ℚ
  dummy3 : ℚ
  position : Float3
  color : Float3
  emission : Float3
deriving DecidableEq

/-- The initialiser written with the `float3(x, y, z)` helper of main.cpp:184. -/
def float3 (x y z : ℚ) : Float3 := { s0 := x, s1 := y, s2 := z }

/-- A zero-initialised `Sphere`, the content of the global array before `initScene`. -/
def zeroSphere : Sphere :=
  { radius := 0, dummy1 := 0, dummy2 := 0, dummy3 := 0,
    position := float3 0 0 0, color := float3 0 0 0, emission := float3 0 0 0 }

/-- In-place update of the array element `xs[i]`. -/
def updateAt {α : Type} (xs : List α) (i : Nat) (f : α → α) : List α :=
  match xs, i with
  | [], _ => []
  | x :: rest, 0 => f x :: rest
  | x :: rest, i + 1 => x :: updateAt rest i f

/-- The four assignments `cpu_spheres[i].radius = ..; .position = ..; .color = ..;
.emission = ..` that `initScene` performs for one sphere. -/
def assignSphere (cpu_spheres : List Sphere) (i : Nat) (radius : ℚ)
    (position color emission : Float3) : List Sphere :=
  updateAt cpu_spheres i (fun s =>
    { s with radius := radius, position := position, color := color, emission := emission })

/-- The function `initScene` of main.cpp. -/
def initScene (cpu_spheres : List Sphere) : List Sphere :=
  -- left wall
  let cpu_spheres := assignSphere cpu_spheres 0 200.0
    (float3 (-200.6) 0.0 0.0) (float3 0.75 0.25 0.25) (float3 0.0 0.0 0.0)
  -- right wall
  let cpu_spheres := assignSphere cpu_spheres 1 200.0
    (float3 200.6 0.0 0.0) (float3 0.25 0.25 0.75) (float3 0.0 0.0 0.0)
  -- floor
  let cpu_spheres := assignSphere cpu_spheres 2 200.0
    (float3 0.0 (-200.4) 0.0) (float3 0.9 0.8 0.7) (float3 0.0 0.0 0.0)
  -- ceiling
  let cpu_spheres := assignSphere cpu_spheres 3 200.0
    (float3 0.0 200.4 0.0) (float3 0.9 0.8 0.7) (float3 0.0 0.0 0.0)
  -- back wall
  let cpu_spheres := assignSphere cpu_spheres 4 200.0
    (float3 0.0 0.0 (-200.4)) (float3 0.9 0.8 0.7) (float3 0.0 0.0 0.0)
  -- front wall
  let cpu_spheres := assignSphere cpu_spheres 5 200.0
    (float3 0.0 0.0 202.0) (float3 0.9 0.8 0.7) (float3 0.0 0.0 0.0)
  -- left sphere
  let cpu_spheres := assignSphere cpu_spheres 6 0.16
    (float3 (-0.25) (-0.24) (-0.1)) (float3 0.9 0.8 0.7) (float3 0.0 0.0 0.0)
  -- right sphere
  let cpu_spheres := assignSphere cpu_spheres 7 0.16
    (float3 0.25 (-0.24) 0.1) (float3 0.9 0.8 0.7) (float3 0.0 0.0 0.0)
  -- lightsource
  let cpu_spheres := assignSphere cpu_spheres 8 1.0
    (float3 0.0 1.36 0.0) (float3 0.0 0.0 0.0) (float3 9.0 8.0 6.0)
  cpu_spheres

/-! ## Kernel object, event log and program state -/

/-- The two memory objects bound as kernel arguments. -/
inductive MemObject where
  | cl_spheres
  | cl_vbo
deriving DecidableEq

/-- A value passed to `kernel.setArg`. -/
inductive KernelArg where
  | mem (m : MemObject)
  | int (v : Int)
  | uint (v : Nat)
deriving DecidableEq

/-- The argument slots of the kernel entry point `render_kernel`, which takes six
positional arguments; a slot is `none` until `setArg` binds it. -/
structure Kernel where
  arg0 : Option KernelArg
  arg1 : Option KernelArg
  arg2 : Option KernelArg
  arg3 : Option KernelArg
  arg4 : Option KernelArg
  arg5 : Option KernelArg
deriving DecidableEq

/-- A freshly created `Kernel(program, "render_kernel")`: no argument bound. -/
def Kernel.fresh : Kernel :=
  { arg0 := none, arg1 := none, arg2 := none, arg3 := none, arg4 := none, arg5 := none }

/-- The effect of `kernel.setArg(index, value)` on the argument slots. -/
def Kernel.setArg (k : Kernel) (index : Nat) (value : KernelArg) : Kernel :=
  match index with
  | 0 => { k with arg0 := some value }
  | 1 => { k with arg1 := some value }
  | 2 => { k with arg2 := some value }
  | 3 => { k with arg3 := some value }
  | 4 => { k with arg4 := some value }
  | 5 => { k with arg5 := some value }
  | _ => k

/-- One call into OpenCL, OpenGL or GLUT, with the arguments that matter here. -/
inductive Event where
  /-- Call `queue.enqueueWriteBuffer(cl_spheres, CL_TRUE, 0, .., cpu_spheres)` -/
  | enqueueWriteBuffer (data : List Sphere)
  /-- Call `kernel.setArg(index, value)` -/
  | setArg (index : Nat) (value : KernelArg)
  /-- Call `glFinish()` -/
  | glFinish
  /-- Call `queue.enqueueAcquireGLObjects(&cl_vbos)` -/
  | enqueueAcquireGLObjects
  /-- Call `queue.finish()` -/
  | queueFinish
  /-- Call `queue.enqueueNDRangeKernel(kernel, NULL, global, local)`, with the argument
  slots of the kernel at that moment -/
  | enqueueNDRangeKernel (kernel : Kernel) (global_work_size local_work_size : Nat)
  /-- Call `queue.enqueueReleaseGLObjects(&cl_vbos)` -/
  | enqueueReleaseGLObjects
  /-- Call `glClear(GL_COLOR_BUFFER_BIT)` -/
  | glClear
  /-- Call `glBindBuffer(GL_ARRAY_BUFFER, vbo)` -/
  | glBindBuffer
  /-- Call `glVertexPointer(2, GL_FLOAT, 16, 0)` -/
  | glVertexPointer
  /-- Call `glColorPointer(4, GL_UNSIGNED_BYTE, 16, 8)` -/
  | glColorPointer
  /-- Call `glEnableClientState(..)` -/
  | glEnableClientState
  /-- Call `glDrawArrays(GL_POINTS, 0, count)` -/
  | glDrawArrays (count : Int)
  /-- Call `glDisableClientState(..)` -/
  | glDisableClientState
  /-- Call `glutSwapBuffers()` -/
  | glutSwapBuffers
deriving DecidableEq

/-- The global variables of main.cpp that `render` reads or writes, together with
the content of the device buffer `cl_spheres` and the log of issued calls. -/
structure State where
  /-- the global `framenumber` -/
  framenumber : Nat
  /-- the global array `cpu_spheres` -/
  cpu_spheres : List Sphere
  /-- content of the device buffer behind `cl_spheres` -/
  cl_spheres : List Sphere
  /-- argument slots of the global `kernel` -/
  kernel : Kernel
  /-- calls issued so far, oldest first -/
  log : List Event
deriving DecidableEq

/-- Appends one issued call to the log. -/
def State.emit (s : State) (e : Event) : State := { s with log := s.log ++ [e] }

/-- The call `queue.enqueueWriteBuffer(cl_spheres, CL_TRUE, 0,
sphere_count * sizeof(Sphere), cpu_spheres)`: a blocking copy of the first
`sphere_count` host records into the device buffer. -/
def enqueueWriteBuffer (s : State) : State :=
  let data := s.cpu_spheres.take sphere_count.toNat
  { s with cl_spheres := data, log := s.log ++ [Event.enqueueWriteBuffer data] }

/-- The call `kernel.setArg(index, value)`. -/
def setArg (index : Nat) (value : KernelArg) (s : State) : State :=
  { s with kernel := s.kernel.setArg index value, log := s.log ++ [Event.setArg index value] }

/-- The function `initCLKernel` of main.cpp. -/
def initCLKernel (s : State) : State :=
  let s := { s with kernel := Kernel.fresh }
  let s := setArg 0 (KernelArg.mem MemObject.cl_spheres) s
  let s := setArg 1 (KernelArg.int window_width) s
  let s := setArg 2 (KernelArg.int window_height) s
  let s := setArg 3 (KernelArg.int sphere_count) s
  let s := setArg 4 (KernelArg.mem MemObject.cl_vbo) s
  let s := setArg 5 (KernelArg.uint s.framenumber) s
  s

/-! ## Frame dispatch (main.cpp:262-315, gl_interop.h:51-67) -/

/-- The work-size computation at the head of `runKernel` (main.cpp:265-270) as a
function of the pixel count and of the work-group size reported by the device,
in `size_t` arithmetic. The remainder by a zero work-group size is undefined. -/
def globalWorkSize (pixel_count local_work_size : Nat) : Option Nat :=
  let global_work_size := pixel_count
  if local_work_size = 0 then none
  else if global_work_size % local_work_size ≠ 0 then
    some (((global_work_size / local_work_size + 1) % SIZE_MOD * local_work_size) % SIZE_MOD)
  else some global_work_size

/-- The function `runKernel` of main.cpp; `local_work_size` is the value returned by
`kernel.getWorkGroupInfo<CL_KERNEL_WORK_GROUP_SIZE>(device)`. -/
def runKernel (local_work_size : Nat) (s : State) : Option State :=
  match globalWorkSize (toSizeT (window_width * window_height)) local_work_size with
  | none => none
  | some global_work_size =>
    let s := s.emit Event.glFinish
    let s := s.emit Event.enqueueAcquireGLObjects
    let s := s.emit Event.queueFinish
    let s := s.emit (Event.enqueueNDRangeKernel s.kernel global_work_size local_work_size)
    let s := s.emit Event.queueFinish
    let s := s.emit Event.enqueueReleaseGLObjects
    let s := s.emit Event.queueFinish
    some s

/-- The function `drawGL` of gl_interop.h. -/
def drawGL (s : State) : State :=
  let s := s.emit Event.glClear
  let s := s.emit Event.glBindBuffer
  let s := s.emit Event.glVertexPointer
  let s := s.emit Event.glColorPointer
  let s := s.emit Event.glEnableClientState
  let s := s.emit Event.glEnableClientState
  let s := s.emit (Event.glDrawArrays (window_width * window_height))
  let s := s.emit Event.glDisableClientState
  let s := s.emit Event.glDisableClientState
  let s := s.emit Event.glutSwapBuffers
  s

/-- The function `render` of main.cpp. -/
def render (local_work_size : Nat) (s : State) : Option State :=
  let s := { s with framenumber := (s.framenumber + 1) % UINT_MOD }
  let s := { s with cpu_spheres := updateAt s.cpu_spheres 6 (fun sphere =>
    { sphere with position := { sphere.position with s1 := sphere.position.s1 + 0.01 } }) }
  let s := enqueueWriteBuffer s
  let s := setArg 0 (KernelArg.mem MemObject.cl_spheres) s
  let s := setArg 5 (KernelArg.uint (WangHash s.framenumber)) s
  match runKernel local_work_size s with
  | none => none
  | some s => some (drawGL s)

/-- The state in which `main` enters `glutMainLoop`: `framenumber` is 0, the scene
is initialised and uploaded (main.cpp:340-343) and `initCLKernel` has run. -/
def startState : State :=
  let s : State :=
    { framenumber := 0, cpu_spheres := initScene (List.replicate sphere_count.toNat zeroSphere),
      cl_spheres := [], kernel := Kernel.fresh, log := [] }
  let s := enqueueWriteBuffer s
  initCLKernel s

/-- The first `n` frames: `render` called `n` times in a row by the main loop. -/
def renderFrames (local_work_size : Nat) : Nat → State → Option State
  | 0, s => some s
  | n + 1, s =>
    match render local_work_size s with
    | none => none
    | some s => renderFrames local_work_size n s

/-- The kernel argument 5 (the seed) seen by each `enqueueNDRangeKernel` of a log,
oldest first. -/
def dispatchedSeeds : List Event → List (Option KernelArg)
  | [] => []
  | Event.enqueueNDRangeKernel kernel _ _ :: rest => kernel.arg5 :: dispatchedSeeds rest
  | _ :: rest => dispatchedSeeds rest

/-! ## Ownership of the shared surface along an event log -/

/-- The domain that owns the shared vertex buffer. -/
inductive Owner where
  | graphics
  | compute
deriving DecidableEq

/-- Ownership after one call: an acquire hands the surface to the compute domain, a
release hands it back to the graphics domain, any other call leaves it alone. -/
def ownerStep (o : Owner) (e : Event) : Owner :=
  match e with
  | Event.enqueueAcquireGLObjects => Owner.compute
  | Event.enqueueReleaseGLObjects => Owner.graphics
  | _ => o

/-- Ownership after a whole log, starting from owner `o`. -/
def surfaceOwner (o : Owner) (log : List Event) : Owner := log.foldl ownerStep o

/-- Owner of the surface at the moment of each call of the log that satisfies `p`,
starting from owner `o`. -/
def ownersAt (p : Event → Bool) : Owner → List Event → List Owner
  | _, [] => []
  | o, e :: rest => (if p e then [o] else []) ++ ownersAt p (ownerStep o e) rest

/-- Recognises the scene-buffer write. -/
def Event.isWrite : Event → Bool
  | Event.enqueueWriteBuffer _ => true
  | _ => false

/-- Recognises the graphics flush `glFinish`. -/
def Event.isFlush : Event → Bool
  | Event.glFinish => true
  | _ => false

/-- Recognises the acquire of the shared surface. -/
def Event.isAcquire : Event → Bool
  | Event.enqueueAcquireGLObjects => true
  | _ => false

/-- Recognises the kernel enqueue. -/
def Event.isDispatch : Event → Bool
  | Event.enqueueNDRangeKernel _ _ _ => true
  | _ => false

/-- Recognises the release of the shared surface. -/
def Event.isRelease : Event → Bool
  | Event.enqueueReleaseGLObjects => true
  | _ => false

/-- Recognises the draw call `glDrawArrays`. -/
def Event.isDraw : Event → Bool
  | Event.glDrawArrays _ => true
  | _ => false

/-- Some call satisfying `p` is issued before some call satisfying `q`. -/
def Precedes (p q : Event → Bool) (log : List Event) : Prop :=
  ∃ l1 a l2 b l3, log = l1 ++ a :: l2 ++ b :: l3 ∧ p a = true ∧ q b = true

/-! ## Interactive selection (main.cpp:55-91) -/

/-- The value that `cin >> input` leaves in the `int input` for one entry of the
operator: `none` is an entry that is not a number, for which the extraction fails
and stores 0; a number outside the range of `int` is stored as the nearest bound.
The rest of a rejected entry is dropped by `cin.clear(); cin.ignore(..)`, so each
extraction sees the next entry. -/
def cinRead : Option Int → Int
  | none => 0
  | some v => if v < INT_MIN then INT_MIN else if INT_MAX < v then INT_MAX else v

/-- The loop condition `input < 1 || input > size()`; the second comparison is
between an `int` and a `size_t`, so `input` is converted to `size_t` first. -/
def noSuchOption (size : Nat) (input : Int) : Bool :=
  decide (input < 1) || decide (size < toSizeT input)

/-- The loop `while (input < 1 || input > size()) { ..; cin >> input; }` started with
the current `input` and the entries still to come; the result is the accepted
`input` and the entries left unread. -/
def retryLoop (size : Nat) : Int → List (Option Int) → Option (Int × List (Option Int))
  | input, [] => if noSuchOption size input then none else some (input, [])
  | input, entry :: cin =>
    if noSuchOption size input then retryLoop size (cinRead entry) cin
    else some (input, entry :: cin)

/-- The function `pickPlatform` of main.cpp: the chosen platform and the entries left
unread. -/
def pickPlatform {Platform : Type} (platforms : List Platform) (cin : List (Option Int)) :
    Option (Platform × List (Option Int)) :=
  if platforms.length = 1 then (platforms[0]?).map (fun platform => (platform, cin))
  else
    match cin with
    | [] => none
    | entry :: cin =>
      match retryLoop platforms.length (cinRead entry) cin with
      | none => none
      | some (input, cin) =>
        (platforms[toSizeT (input - 1)]?).map (fun platform => (platform, cin))

/-- The function `pickDevice` of main.cpp: the chosen device and the entries left
unread. -/
def pickDevice {Device : Type} (devices : List Device) (cin : List (Option Int)) :
    Option (Device × List (Option Int)) :=
  if devices.length = 1 then (devices[0]?).map (fun device => (device, cin))
  else
    match cin with
    | [] => none
    | entry :: cin =>
      match retryLoop devices.length (cinRead entry) cin with
      | none => none
      | some (input, cin) =>
        (devices[toSizeT (input - 1)]?).map (fun device => (device, cin))

/-- An entry of the operator that names one of `n` candidates: a number in `1..n`. -/
def validEntry (n : Nat) (entry : Option Int) : Bool :=
  match entry with
  | none => false
  | some v => decide (1 ≤ v) && decide (v ≤ (n : Int))

/-! ## Loading the kernel source (main.cpp:159-171) -/

/-- An input file stream: the characters not yet extracted and two state flags. -/
structure IfStream where
  content : List Char
  eofbit : Bool
  failbit : Bool
deriving DecidableEq

/-- Outcome of the extraction loop of `getline`. -/
structure Extracted where
  /-- characters stored in the buffer -/
  stored : List Char
  /-- characters left in the stream -/
  rest : List Char
  /-- end of file was met -/
  eof : Bool
  /-- the buffer filled up before a delimiter -/
  full : Bool
  /-- number of characters extracted -/
  count : Nat
deriving DecidableEq

/-- The extraction loop of `istream::getline(s, n)` with `room = n - 1 - stored`
places left in the buffer. Before each character the three stop conditions are
tested in the order of the standard: end of file; next character is the
delimiter (which is extracted and not stored); `n - 1` characters stored. -/
def extractLine : Nat → List Char → Extracted
  | _, [] => { stored := [], rest := [], eof := true, full := false, count := 0 }
  | room, c :: rest =>
    if c = '\n' then { stored := [], rest := rest, eof := false, full := false, count := 1 }
    else
      match room with
      | 0 => { stored := [], rest := c :: rest, eof := false, full := true, count := 0 }
      | room + 1 =>
        let r := extractLine room rest
        { r with stored := c :: r.stored, count := r.count + 1 }

/-- The call `file.getline(line, n)`: the content of `line` up to its terminating
null character, and the stream afterwards. On a stream that is not good nothing
is extracted, `failbit` is set and `line` is the empty string. `failbit` is also
set when the buffer fills up or when no character is extracted. -/
def getline (file : IfStream) (n : Nat) : List Char × IfStream :=
  if file.eofbit || file.failbit then
    ([], { file with failbit := true })
  else
    let r := extractLine (n - 1) file.content
    (r.stored, { content := r.rest, eofbit := r.eof, failbit := r.full || r.count == 0 })

/-- The characters that `source += line` appends: `line` is read as a C string, up to
its first null character. -/
def cString (line : List Char) : List Char := line.takeWhile (fun c => c != Char.ofNat 0)

/-- The loop `while (!file.eof()) { char line[256]; file.getline(line, 255);
source += line; }`, run for at most `fuel` iterations. -/
def readLoop : Nat → IfStream → List Char → Option (List Char)
  | 0, _, _ => none
  | fuel + 1, file, source =>
    if file.eofbit then some source
    else
      let r := getline file 255
      readLoop fuel r.2 (source ++ cString r.1)

/-- The stream `ifstream file("opencl_kernel.cl")` on an existing file. -/
def openFile (content : List Char) : IfStream :=
  { content := content, eofbit := false, failbit := false }

/-- The source string that `initOpenCL` builds from the file, with at most `fuel`
iterations of the reading loop. -/
def loadKernelSource (fuel : Nat) (content : List Char) : Option (List Char) :=
  readLoop fuel (openFile content) []

/-- The file content with the line terminators removed: the concatenation of its
lines. -/
def stripLineTerminators (content : List Char) : List Char :=
  content.filter (fun c => c != '\n')

/-! ## Measures on WangHash -/

/-- Number of set bits among the low `bits` bits of `x`. -/
def popCount : Nat → Nat → Nat
  | 0, _ => 0
  | bits + 1, x => x % 2 + popCount bits (x / 2)

/-- Number of bit positions, among the 32 of an `unsigned int`, in which two words
differ: the number of set bits of their exclusive or. -/
def hammingDistance (x y : Nat) : Nat := popCount 32 (x ^^^ y)

/-- Sum, over the counters `n < 256` and the bit positions `b < 32`, of the Hamming
distance between `WangHash n` and the hash of `n` with bit `b` flipped. -/
def avalancheTotal : Nat :=
  ((List.range 256).map (fun n =>
    ((List.range 32).map (fun b =>
      hammingDistance (WangHash n) (WangHash (n ^^^ 2 ^ b)))).sum)).sum

/-- Checks `WangHash n ≠ n` for the `2 ^ d` values `n` from `lo` on. -/
def noFixedPointBlock : Nat → Nat → Bool
  | 0, lo => WangHash lo != lo
  | d + 1, lo => noFixedPointBlock d lo && noFixedPointBlock d (lo + 2 ^ d)

/-- Undoes `WangHash` step by step, last step first: the two xor-shifts are undone
by repeated xor-shifts, the two multiplications (by 9 and by 0x27d4eb2d) by
multiplication with the inverse modulo `2 ^ 32`. -/
def WangHashInv (a : Nat) : Nat :=
  let a := a ^^^ (a >>> 15)
  let a := a ^^^ (a >>> 30)
  let a := (a * 4218002597) % UINT_MOD
  let a := a ^^^ (a >>> 4)
  let a := a ^^^ (a >>> 8)
  let a := a ^^^ (a >>> 16)
  let a := (a * 954437177) % UINT_MOD
  let a := (a ^^^ 61) ^^^ (a >>> 16)
  a

/-! ## Unfolded form of one frame (used to state and prove the frame theorems) -/

/-- The host scene after the statement `cpu_spheres[6].position.s[1] += 0.01`. -/
def movedScene (cpu_spheres : List Sphere) : List Sphere :=
  updateAt cpu_spheres 6 (fun sphere =>
    { sphere with position := { sphere.position with s1 := sphere.position.s1 + 0.01 } })

/-- The argument slots after the two `setArg` calls of `render` on counter `n`. -/
def frameKernel (kernel : Kernel) (n : Nat) : Kernel :=
  (kernel.setArg 0 (KernelArg.mem MemObject.cl_spheres)).setArg 5 (KernelArg.uint (WangHash n))

/-- The calls that one `render` issues, in program order, when the new counter is
`n`, the uploaded scene is `data`, the kernel slots on entry are `kernel` and the
work sizes are `gws` and `lws`. -/
def frameLog (data : List Sphere) (kernel : Kernel) (n gws lws : Nat) : List Event :=
  [ Event.enqueueWriteBuffer data,
    Event.setArg 0 (KernelArg.mem MemObject.cl_spheres),
    Event.setArg 5 (KernelArg.uint (WangHash n)),
    Event.glFinish,
    Event.enqueueAcquireGLObjects,
    Event.queueFinish,
    Event.enqueueNDRangeKernel (frameKernel kernel n) gws lws,
    Event.queueFinish,
    Event.enqueueReleaseGLObjects,
    Event.queueFinish,
    Event.glClear,
    Event.glBindBuffer,
    Event.glVertexPointer,
    Event.glColorPointer,
    Event.glEnableClientState,
    Event.glEnableClientState,
    Event.glDrawArrays (window_width * window_height),
    Event.glDisableClientState,
    Event.glDisableClientState,
    Event.glutSwapBuffers ]

/-- The state after one `render` from `s` with work sizes `gws` and `lws`. -/
def frameState (gws lws : Nat) (s : State) : State :=
  { framenumber := (s.framenumber + 1) % UINT_MOD,
    cpu_spheres := movedScene s.cpu_spheres,
    cl_spheres := (movedScene s.cpu_spheres).take sphere_count.toNat,
    kernel := frameKernel s.kernel ((s.framenumber + 1) % UINT_MOD),
    log := s.log ++ frameLog ((movedScene s.cpu_spheres).take sphere_count.toNat) s.kernel
      ((s.framenumber + 1) % UINT_MOD) gws lws }

/-- Vertical position (the component `position.s[1]`) of `cpu_spheres[i]`. -/
def sphereY (cpu_spheres : List Sphere) (i : Nat) : Option ℚ :=
  (cpu_spheres[i]?).map (fun sphere => sphere.position.s1)

/-- Every line of `content` has at most `limit` characters; `room` is what remains of
the limit on the line being scanned. -/
def linesFit (limit : Nat) : Nat → List Char → Bool
  | _, [] => true
  | room, c :: rest =>
    if c = '\n' then linesFit limit limit rest
    else
      match room with
      | 0 => false
      | room + 1 => linesFit limit room rest

/-! # Theorems -/

/-! ## Lemmas on one frame -/

theorem globalWorkSize_isSome (p lws : Nat) (hl : 0 < lws) :
    ∃ gws, globalWorkSize p lws = some gws := by
  unfold globalWorkSize
  have h0 : lws ≠ 0 := Nat.pos_iff_ne_zero.mp hl
  by_cases h : p % lws = 0
  · exact ⟨p, by simp [h0, h]⟩
  · exact ⟨((p / lws + 1) % SIZE_MOD * lws) % SIZE_MOD, by simp [h0, h]⟩

/-- The routine `render` computes `frameState`, with the global work size that
`globalWorkSize` yields; it fails exactly when that computation fails. -/
theorem render_eq (lws : Nat) (s : State) :
    render lws s =
      (globalWorkSize (toSizeT (window_width * window_height)) lws).map
        (fun gws => frameState gws lws s) := by
  unfold render runKernel
  cases globalWorkSize (toSizeT (window_width * window_height)) lws with
  | none => rfl
  | some gws =>
    simp [drawGL, State.emit, enqueueWriteBuffer, setArg, frameState, frameLog, frameKernel,
      movedScene]

theorem render_some (lws : Nat) (s : State) (hl : 0 < lws) :
    ∃ gws, render lws s = some (frameState gws lws s) := by
  obtain ⟨gws, hg⟩ := globalWorkSize_isSome (toSizeT (window_width * window_height)) lws hl
  exact ⟨gws, by rw [render_eq, hg]; rfl⟩

theorem UINT_MOD_eq : UINT_MOD = 4294967296 := by norm_num [UINT_MOD]

theorem dispatchedSeeds_append (l1 l2 : List Event) :
    dispatchedSeeds (l1 ++ l2) = dispatchedSeeds l1 ++ dispatchedSeeds l2 := by
  induction l1 with
  | nil => rfl
  | cons e l ih => cases e <;> simp [dispatchedSeeds, ih]

theorem dispatchedSeeds_frameLog (data : List Sphere) (kernel : Kernel) (n gws lws : Nat) :
    dispatchedSeeds (frameLog data kernel n gws lws) = [some (KernelArg.uint (WangHash n))] := by
  simp [frameLog, dispatchedSeeds, frameKernel, Kernel.setArg]

theorem dispatchedSeeds_frameState (gws lws : Nat) (s : State) :
    dispatchedSeeds (frameState gws lws s).log =
      dispatchedSeeds s.log ++ [some (KernelArg.uint (WangHash ((s.framenumber + 1) % UINT_MOD)))] := by
  simp only [frameState, dispatchedSeeds_append, dispatchedSeeds_frameLog]

/-- After `k` frames from `s` the counter has advanced by `k` (modulo `2 ^ 32`) and
the seeds dispatched in those frames are the hashes of the successive counters. -/
theorem renderFrames_seeds (lws : Nat) (hl : 0 < lws) (k : Nat) (s : State)
    (hs : s.framenumber < UINT_MOD) :
    ∃ sk, renderFrames lws k s = some sk ∧
      sk.framenumber = (s.framenumber + k) % UINT_MOD ∧
      dispatchedSeeds sk.log = dispatchedSeeds s.log ++
        (List.range k).map
          (fun i => some (KernelArg.uint (WangHash ((s.framenumber + i + 1) % UINT_MOD)))) := by
  induction k generalizing s with
  | zero =>
    exact ⟨s, rfl, by rw [Nat.add_zero, Nat.mod_eq_of_lt hs], by simp⟩
  | succ k ih =>
    obtain ⟨gws, hr⟩ := render_some lws s hl
    have hlt : (frameState gws lws s).framenumber < UINT_MOD :=
      Nat.mod_lt _ (by norm_num [UINT_MOD_eq])
    obtain ⟨sk, hk, hfn, hseeds⟩ := ih (frameState gws lws s) hlt
    refine ⟨sk, ?_, ?_, ?_⟩
    · simp only [renderFrames, hr, hk]
    · rw [hfn]
      simp only [frameState, UINT_MOD_eq]
      omega
    · have hmap : (List.range k).map (fun i => some (KernelArg.uint
            (WangHash (((frameState gws lws s).framenumber + i + 1) % UINT_MOD)))) =
          (List.range k).map ((fun i => some (KernelArg.uint
            (WangHash ((s.framenumber + i + 1) % UINT_MOD)))) ∘ Nat.succ) := by
        apply List.map_congr_left
        intro i _
        have harith : ((s.framenumber + 1) % UINT_MOD + i + 1) % UINT_MOD =
            (s.framenumber + (i + 1) + 1) % UINT_MOD := by
          rw [UINT_MOD_eq]
          omega
        show some (KernelArg.uint (WangHash (((s.framenumber + 1) % UINT_MOD + i + 1) % UINT_MOD)))
          = some (KernelArg.uint (WangHash ((s.framenumber + (i + 1) + 1) % UINT_MOD)))
        rw [harith]
      rw [hseeds, hmap, dispatchedSeeds_frameState, List.range_succ_eq_map, List.map_cons,
        List.map_map, List.append_assoc, List.singleton_append]

theorem startState_framenumber : startState.framenumber = 0 := rfl

theorem startState_arg5 : startState.kernel.arg5 = some (KernelArg.uint 0) := rfl

theorem startState_seeds : dispatchedSeeds startState.log = [] := by
  simp [startState, initCLKernel, setArg, enqueueWriteBuffer, dispatchedSeeds]

/-! ## Work-size quantisation -/

theorem SIZE_MOD_eq : SIZE_MOD = 18446744073709551616 := by norm_num [SIZE_MOD, SIZE_BITS]

/-- C1: for every pixel count in the range of the `int` product
`window_width * window_height` and every work-group size `group_size > 0` (a
`size_t`), the global work size computed in `runKernel` is defined, is a multiple
of `group_size`, is at least the pixel count, is the smallest such multiple, and
equals the pixel count when that is already a multiple; for 1280 * 720 = 921600
pixels and groups of 256 it is 921600. -/
theorem globalWorkSize_smallest_multiple (pixel_count group_size : Nat)
    (hp : (pixel_count : Int) ≤ INT_MAX) (hg : 0 < group_size) (hs : group_size < SIZE_MOD) :
    (∃ r, globalWorkSize pixel_count group_size = some r ∧
      group_size ∣ r ∧ pixel_count ≤ r ∧
      (∀ m, group_size ∣ m → pixel_count ≤ m → r ≤ m) ∧
      (pixel_count % group_size = 0 → r = pixel_count)) ∧
    toSizeT (window_width * window_height) = 921600 ∧
    globalWorkSize (toSizeT (window_width * window_height)) 256 = some 921600 := by
  refine ⟨?_, by decide, by decide⟩
  have hp' : pixel_count < 2147483648 := by
    have : (pixel_count : Int) ≤ 2147483647 := by simpa [INT_MAX] using hp
    omega
  rw [SIZE_MOD_eq] at hs
  have h0 : group_size ≠ 0 := Nat.pos_iff_ne_zero.mp hg
  by_cases h : pixel_count % group_size = 0
  · refine ⟨pixel_count, by simp [globalWorkSize, h0, h], Nat.dvd_of_mod_eq_zero h,
      le_refl _, fun m _ hm => hm, fun _ => rfl⟩
  · have hlt : pixel_count < (pixel_count / group_size + 1) * group_size := by
      rw [Nat.mul_comm]
      exact Nat.lt_mul_div_succ pixel_count hg
    have hle : (pixel_count / group_size) * group_size ≤ pixel_count :=
      Nat.div_mul_le_self pixel_count group_size
    have hfit : (pixel_count / group_size + 1) * group_size < 18446744073709551616 := by
      by_cases hq : pixel_count / group_size = 0
      · rw [hq]; omega
      · have h1 : group_size ≤ (pixel_count / group_size) * group_size :=
          Nat.le_mul_of_pos_left _ (Nat.pos_of_ne_zero hq)
        have h2 : (pixel_count / group_size + 1) * group_size =
            (pixel_count / group_size) * group_size + group_size := by ring
        omega
    have hq1 : (pixel_count / group_size + 1) % SIZE_MOD = pixel_count / group_size + 1 := by
      apply Nat.mod_eq_of_lt
      rw [SIZE_MOD_eq]
      have : pixel_count / group_size ≤ pixel_count := Nat.div_le_self _ _
      omega
    refine ⟨(pixel_count / group_size + 1) * group_size, ?_, Nat.dvd_mul_left _ _,
      le_of_lt hlt, ?_, fun h' => absurd h' h⟩
    · simp only [globalWorkSize, h0, h, if_false, ne_eq, not_false_eq_true, if_true, hq1]
      rw [SIZE_MOD_eq, Nat.mod_eq_of_lt hfit]
    · rintro m ⟨t, rfl⟩ hm
      by_contra hcon
      have hcon' : group_size * t < (pixel_count / group_size + 1) * group_size :=
        Nat.lt_of_not_le hcon
      have ht : t < pixel_count / group_size + 1 := by
        rw [Nat.mul_comm group_size t] at hcon'
        exact Nat.lt_of_mul_lt_mul_right hcon'
      have ht' : t ≤ pixel_count / group_size := Nat.lt_succ_iff.mp ht
      have h3 : group_size * t ≤ group_size * (pixel_count / group_size) :=
        Nat.mul_le_mul_left _ ht'
      have h4 : group_size * (pixel_count / group_size) ≤ pixel_count :=
        Nat.mul_div_le pixel_count group_size
      have h5 : group_size * t = pixel_count := le_antisymm (le_trans h3 h4) hm
      exact h (by rw [← h5]; exact Nat.mul_mod_right _ _)

/-- Concrete instance: 1000 pixels in groups of 256 are
rounded up to 1024. -/
theorem globalWorkSize_smallest_multiple_witness :
    ((1000 : Int) ≤ INT_MAX ∧ 0 < 256 ∧ 256 < SIZE_MOD) ∧
    ∃ r, globalWorkSize 1000 256 = some r ∧ 256 ∣ r ∧ 1000 ≤ r ∧
      (∀ m, 256 ∣ m → 1000 ≤ m → r ≤ m) ∧ (1000 % 256 = 0 → r = 1000) :=
  ⟨⟨by decide, by decide, by decide⟩,
    (globalWorkSize_smallest_multiple 1000 256 (by decide) (by decide) (by decide)).1⟩

/-- C2: for a positive work-group size, `render` returns, advances the frame counter
by exactly one as a 32-bit unsigned value, and issues exactly one kernel enqueue,
whose kernel argument 5 is `WangHash` of the new counter, bound by the `setArg`
call issued earlier in the same frame. From the start state (counter 0, argument
5 bound to the raw counter 0 by `initCLKernel`, nothing dispatched yet) the seeds
of the first `k` dispatched frames are `WangHash 1, .., WangHash k` (counters
taken modulo `2 ^ 32`), so the `k`-th frame runs with `WangHash k` and no frame
runs with the binding made by `initCLKernel`. -/
theorem render_dispatches_hashed_counter (local_work_size : Nat) (s : State) (k : Nat)
    (hl : 0 < local_work_size) (hk : 1 ≤ k) :
    (∃ s', render local_work_size s = some s' ∧
      s'.framenumber = (s.framenumber + 1) % UINT_MOD ∧
      dispatchedSeeds s'.log =
        dispatchedSeeds s.log ++ [some (KernelArg.uint (WangHash s'.framenumber))] ∧
      ∃ before kernel global_work_size after,
        s'.log = s.log ++ (before ++
          Event.enqueueNDRangeKernel kernel global_work_size local_work_size :: after) ∧
        Event.setArg 5 (KernelArg.uint (WangHash s'.framenumber)) ∈ before ∧
        kernel.arg5 = some (KernelArg.uint (WangHash s'.framenumber))) ∧
    startState.framenumber = 0 ∧
    startState.kernel.arg5 = some (KernelArg.uint 0) ∧
    dispatchedSeeds startState.log = [] ∧
    (∃ sk, renderFrames local_work_size k startState = some sk ∧
      sk.framenumber = k % UINT_MOD ∧
      dispatchedSeeds sk.log =
        (List.range k).map (fun i => some (KernelArg.uint (WangHash ((i + 1) % UINT_MOD)))) ∧
      (dispatchedSeeds sk.log)[k - 1]? = some (some (KernelArg.uint (WangHash (k % UINT_MOD)))) ∧
      (k < UINT_MOD →
        (dispatchedSeeds sk.log)[k - 1]? = some (some (KernelArg.uint (WangHash k))))) := by
  refine ⟨?_, startState_framenumber, startState_arg5, startState_seeds, ?_⟩
  · obtain ⟨gws, hr⟩ := render_some local_work_size s hl
    refine ⟨frameState gws local_work_size s, hr, rfl, dispatchedSeeds_frameState _ _ _, ?_⟩
    exact ⟨[_, _, _, _, _, _], _, gws, _, rfl, by simp [frameState], rfl⟩
  · obtain ⟨sk, hk1, hk2, hk3⟩ := renderFrames_seeds local_work_size hl k startState
      (by rw [startState_framenumber, UINT_MOD_eq]; norm_num)
    rw [startState_framenumber, Nat.zero_add] at hk2
    rw [startState_seeds, List.nil_append] at hk3
    simp only [startState_framenumber, Nat.zero_add] at hk3
    have hseed : (dispatchedSeeds sk.log)[k - 1]? =
        some (some (KernelArg.uint (WangHash (k % UINT_MOD)))) := by
      rw [hk3, List.getElem?_map, List.getElem?_range (by omega)]
      have : k - 1 + 1 = k := by omega
      simp only [Option.map_some', this]
    refine ⟨sk, hk1, hk2, hk3, hseed, fun hlt => ?_⟩
    rw [hseed, Nat.mod_eq_of_lt hlt]

/-- Concrete instance: three frames from the start
state with a work-group size of 256. -/
theorem render_dispatches_hashed_counter_witness :
    (0 < 256 ∧ 1 ≤ 3) ∧
    ∃ sk, renderFrames 256 3 startState = some sk ∧ sk.framenumber = 3 % UINT_MOD ∧
      (dispatchedSeeds sk.log)[3 - 1]? = some (some (KernelArg.uint (WangHash (3 % UINT_MOD)))) :=
  ⟨by decide,
    let ⟨_, _, _, _, sk, h1, h2, _, h4, _⟩ :=
      render_dispatches_hashed_counter 256 startState 3 (by decide) (by decide)
    ⟨sk, h1, h2, h4⟩⟩

/-- C3: for a positive work-group size, `render` returns and the calls it issues, in
program order, satisfy: the scene-buffer write precedes the kernel enqueue, the
graphics flush precedes the acquire, the acquire precedes the kernel enqueue, the
kernel enqueue precedes the release, and the release precedes the draw call;
each of these six calls is issued exactly once; starting graphics-owned, the
shared surface is compute-owned at the one enqueue, graphics-owned at the one draw
call, and graphics-owned when `render` returns. -/
theorem render_event_order (local_work_size : Nat) (s : State) (hl : 0 < local_work_size) :
    ∃ s' frame, render local_work_size s = some s' ∧ s'.log = s.log ++ frame ∧
      Precedes Event.isWrite Event.isDispatch frame ∧
      Precedes Event.isFlush Event.isAcquire frame ∧
      Precedes Event.isAcquire Event.isDispatch frame ∧
      Precedes Event.isDispatch Event.isRelease frame ∧
      Precedes Event.isRelease Event.isDraw frame ∧
      frame.countP Event.isWrite = 1 ∧
      frame.countP Event.isFlush = 1 ∧
      frame.countP Event.isAcquire = 1 ∧
      frame.countP Event.isDispatch = 1 ∧
      frame.countP Event.isRelease = 1 ∧
      frame.countP Event.isDraw = 1 ∧
      ownersAt Event.isDispatch Owner.graphics frame = [Owner.compute] ∧
      ownersAt Event.isDraw Owner.graphics frame = [Owner.graphics] ∧
      surfaceOwner Owner.graphics frame = Owner.graphics := by
  obtain ⟨gws, hr⟩ := render_some local_work_size s hl
  refine ⟨frameState gws local_work_size s, _, hr, rfl, ?_, ?_, ?_, ?_, ?_,
    rfl, rfl, rfl, rfl, rfl, rfl, rfl, rfl, rfl⟩
  · exact ⟨[], _, [_, _, _, _, _], _, _, rfl, rfl, rfl⟩
  · exact ⟨[_, _, _], _, [], _, _, rfl, rfl, rfl⟩
  · exact ⟨[_, _, _, _], _, [_], _, _, rfl, rfl, rfl⟩
  · exact ⟨[_, _, _, _, _, _], _, [_], _, _, rfl, rfl, rfl⟩
  · exact ⟨[_, _, _, _, _, _, _, _], _, [_, _, _, _, _, _, _], _, _, rfl, rfl, rfl⟩

/-- Concrete instance: the first frame with a work-group size of 256. -/
theorem render_event_order_witness :
    0 < 256 ∧
    ∃ s' frame, render 256 startState = some s' ∧ s'.log = startState.log ++ frame ∧
      Precedes Event.isAcquire Event.isDispatch frame ∧
      Precedes Event.isDispatch Event.isRelease frame ∧
      surfaceOwner Owner.graphics frame = Owner.graphics :=
  ⟨by decide,
    let ⟨s', frame, h1, h2, _, _, h5, h6, _, _, _, _, _, _, _, _, _, h16⟩ :=
      render_event_order 256 startState (by decide)
    ⟨s', frame, h1, h2, h5, h6, h16⟩⟩

/-! ## The animated sphere -/

theorem getElem?_updateAt {α : Type} (f : α → α) (xs : List α) (i j : Nat) :
    (updateAt xs i f)[j]? = if j = i then (xs[j]?).map f else xs[j]? := by
  induction xs generalizing i j with
  | nil => simp [updateAt]
  | cons x rest ih =>
    cases i with
    | zero =>
      cases j with
      | zero => simp [updateAt]
      | succ j => simp [updateAt]
    | succ i =>
      cases j with
      | zero => simp [updateAt]
      | succ j => simp [updateAt, ih]

theorem startState_cpu_spheres :
    startState.cpu_spheres = initScene (List.replicate 9 zeroSphere) := rfl

theorem startState_sphereY_5 : sphereY startState.cpu_spheres 5 = some 0 := by
  simp [startState_cpu_spheres, sphereY, initScene, assignSphere, updateAt, List.replicate,
    float3]
  norm_num

theorem startState_sphereY_6 : sphereY startState.cpu_spheres 6 = some (-0.24) := by
  simp [startState_cpu_spheres, sphereY, initScene, assignSphere, updateAt, List.replicate,
    float3]

theorem sphereY_movedScene_6 (cpu_spheres : List Sphere) :
    sphereY (movedScene cpu_spheres) 6 = (sphereY cpu_spheres 6).map (fun y => y + 0.01) := by
  unfold sphereY movedScene
  rw [getElem?_updateAt]
  cases cpu_spheres[6]? <;> simp

theorem getElem?_movedScene (cpu_spheres : List Sphere) (i : Nat) (hi : i ≠ 6) :
    (movedScene cpu_spheres)[i]? = cpu_spheres[i]? := by
  unfold movedScene
  rw [getElem?_updateAt, if_neg hi]

/-- C6 (as stated, refuted): in the reference scene the sixth sphere, `cpu_spheres[5]`
(the front wall), has vertical position 0 before the first frame and still 0 after
it; so it is not the case that the sixth sphere goes from -0.24 to -0.23. -/
theorem sixth_sphere_does_not_move :
    sphereY startState.cpu_spheres (6 - 1) = some 0 ∧
    (∃ s', render 256 startState = some s' ∧ sphereY s'.cpu_spheres (6 - 1) = some 0) ∧
    ¬ ∃ s', render 256 startState = some s' ∧
        sphereY startState.cpu_spheres (6 - 1) = some (-0.24) ∧
        sphereY s'.cpu_spheres (6 - 1) = some (-0.23) := by
  obtain ⟨gws, hr⟩ := render_some 256 startState (by decide)
  have h5 : sphereY (frameState gws 256 startState).cpu_spheres 5 = some 0 := by
    show (((movedScene startState.cpu_spheres)[5]?).map _) = some 0
    rw [getElem?_movedScene _ 5 (by decide)]
    exact startState_sphereY_5
  refine ⟨startState_sphereY_5, ⟨_, hr, h5⟩, ?_⟩
  rintro ⟨s', _, hbefore, _⟩
  have h0 : sphereY startState.cpu_spheres (6 - 1) = some 0 := startState_sphereY_5
  rw [h0] at hbefore
  norm_num at hbefore

/-- C6 (amended): with `sphere_count = 9` and the reference scene of `initScene`, one
call of `render` from frame counter 0 raises the vertical position of the sphere
at zero-based index 6, `cpu_spheres[6]` (the seventh sphere, the left sphere), by
exactly 0.01, from -0.24 to -0.23, leaves every other sphere as it was, and
advances the frame counter from 0 to 1. -/
theorem render_moves_left_sphere (local_work_size : Nat) (hl : 0 < local_work_size) :
    sphere_count = 9 ∧ startState.cpu_spheres.length = 9 ∧
    startState.framenumber = 0 ∧
    sphereY startState.cpu_spheres 6 = some (-0.24) ∧
    ∃ s', render local_work_size startState = some s' ∧
      sphereY s'.cpu_spheres 6 = some (-0.23) ∧
      (-0.23 : ℚ) - (-0.24) = 0.01 ∧
      (∀ i, i ≠ 6 → s'.cpu_spheres[i]? = startState.cpu_spheres[i]?) ∧
      s'.framenumber = 1 := by
  obtain ⟨gws, hr⟩ := render_some local_work_size startState hl
  refine ⟨rfl, ?_, rfl, startState_sphereY_6, frameState gws local_work_size startState, hr,
    ?_, by norm_num, ?_, ?_⟩
  · simp [startState_cpu_spheres, initScene, assignSphere, updateAt, List.replicate]
  · show sphereY (movedScene startState.cpu_spheres) 6 = some (-0.23)
    rw [sphereY_movedScene_6, startState_sphereY_6]
    norm_num
  · intro i hi
    exact getElem?_movedScene _ i hi
  · show (startState.framenumber + 1) % UINT_MOD = 1
    rw [startState_framenumber, UINT_MOD_eq]

/-- Concrete instance: a work-group size of 256. -/
theorem render_moves_left_sphere_witness :
    0 < 256 ∧
    ∃ s', render 256 startState = some s' ∧ sphereY s'.cpu_spheres 6 = some (-0.23) ∧
      s'.framenumber = 1 :=
  ⟨by decide,
    let ⟨_, _, _, _, s', h1, h2, _, _, h5⟩ := render_moves_left_sphere 256 (by decide)
    ⟨s', h1, h2, h5⟩⟩

/-! ## Fixed points and avalanche of WangHash on small counters -/

theorem noFixedPointBlock_sound (d lo : Nat) (h : noFixedPointBlock d lo = true) (n : Nat)
    (hlo : lo ≤ n) (hhi : n < lo + 2 ^ d) : WangHash n ≠ n := by
  induction d generalizing lo with
  | zero =>
    have hn : n = lo := by
      have : n < lo + 1 := by simpa using hhi
      omega
    subst hn
    simpa [noFixedPointBlock] using h
  | succ d ih =>
    simp only [noFixedPointBlock, Bool.and_eq_true] at h
    by_cases hmid : n < lo + 2 ^ d
    · exact ih lo h.1 hlo hmid
    · refine ih (lo + 2 ^ d) h.2 (Nat.le_of_not_lt hmid) ?_
      have : 2 ^ (d + 1) = 2 ^ d + 2 ^ d := by ring
      omega

theorem sum_map_range (f : Nat → Nat) (n : Nat) :
    ((List.range n).map f).sum = ∑ i in Finset.range n, f i := by
  induction n with
  | zero => simp
  | succ n ih =>
    rw [List.range_succ, List.map_append, List.sum_append, ih, Finset.sum_range_succ]
    simp

theorem popCount_eq_count (bits x : Nat) :
    popCount bits x = ((List.range bits).filter (fun i => x.testBit i)).length := by
  induction bits generalizing x with
  | zero => rfl
  | succ bits ih =>
    have hsucc : ((fun i => x.testBit i) ∘ Nat.succ) = (fun i => (x / 2).testBit i) := by
      funext i
      exact Nat.testBit_succ x i
    rw [popCount, ih, List.range_succ_eq_map, List.filter_cons, List.filter_map, hsucc,
      Nat.testBit_zero]
    rcases Nat.mod_two_eq_zero_or_one x with h | h
    · simp [h]
    · simp [h, Nat.add_comm]

/-- The Hamming distance counts the bit positions below 32 in which the words differ. -/
theorem hammingDistance_eq_count (x y : Nat) :
    hammingDistance x y =
      ((List.range 32).filter (fun i => x.testBit i != y.testBit i)).length := by
  unfold hammingDistance
  rw [popCount_eq_count]
  congr 2
  funext i
  rw [Nat.testBit_xor]

theorem noFixedPointBlock_16 : noFixedPointBlock 16 0 = true := by decide!

theorem avalancheTotal_eq : avalancheTotal = 130389 := by decide!

/-- C8: `WangHash` has no fixed point among the counters `0 .. 65535`: `WangHash 0 ≠ 0`
and `WangHash n ≠ n` for every `n ≤ 65535`. -/
theorem WangHash_no_small_fixed_point (n : Nat) (hn : n ≤ 65535) :
    WangHash 0 ≠ 0 ∧ WangHash n ≠ n :=
  ⟨noFixedPointBlock_sound 16 0 noFixedPointBlock_16 0 (le_refl 0) (by norm_num),
    noFixedPointBlock_sound 16 0 noFixedPointBlock_16 n (Nat.zero_le n)
      (by have : (2 : Nat) ^ 16 = 65536 := by norm_num
          omega)⟩

/-- Concrete instance: the counter 65535. -/
theorem WangHash_no_small_fixed_point_witness :
    65535 ≤ 65535 ∧ WangHash 0 ≠ 0 ∧ WangHash 65535 ≠ 65535 :=
  ⟨le_refl _, WangHash_no_small_fixed_point 65535 (le_refl _)⟩

/-- C9: over the 8192 pairs of a counter `n < 256` and a bit position `b < 32`, the
Hamming distances between `WangHash n` and `WangHash (n xor 2 ^ b)` sum to 130389,
which is at least 78644, that is, at least 30% of the 32 output bits on average. -/
theorem WangHash_avalanche :
    (∀ x y, hammingDistance x y =
      ((List.range 32).filter (fun i => x.testBit i != y.testBit i)).length) ∧
    avalancheTotal =
      ∑ n in Finset.range 256, ∑ b in Finset.range 32,
        hammingDistance (WangHash n) (WangHash (n ^^^ 2 ^ b)) ∧
    avalancheTotal = 130389 ∧
    78644 ≤ avalancheTotal ∧
    30 * (32 * (256 * 32)) ≤ 100 * avalancheTotal := by
  refine ⟨hammingDistance_eq_count, ?_, avalancheTotal_eq, ?_, ?_⟩
  · unfold avalancheTotal
    simp only [sum_map_range]
  · rw [avalancheTotal_eq]; norm_num
  · rw [avalancheTotal_eq]; norm_num

/-! ## WangHash is a bijection on 32-bit words -/

theorem shiftRight_xor (x y k : Nat) : (x ^^^ y) >>> k = (x >>> k) ^^^ (y >>> k) := by
  apply Nat.eq_of_testBit_eq
  intro i
  simp only [Nat.testBit_shiftRight, Nat.testBit_xor]

theorem shiftRight_le_self (x k : Nat) : x >>> k ≤ x := by
  rw [Nat.shiftRight_eq_div_pow]
  exact Nat.div_le_self x (2 ^ k)

/-- Applying the xor-shift by `k` twice gives the xor-shift by `2 * k`. -/
theorem xorShift_twice (x k : Nat) :
    (x ^^^ (x >>> k)) ^^^ ((x ^^^ (x >>> k)) >>> k) = x ^^^ (x >>> (k + k)) := by
  rw [shiftRight_xor, ← Nat.shiftRight_add, Nat.xor_assoc,
    ← Nat.xor_assoc (x >>> k), Nat.xor_self, Nat.zero_xor]

theorem shiftRight_eq_zero_of_lt {x n k : Nat} (hx : x < 2 ^ n) (hk : n ≤ k) : x >>> k = 0 := by
  rw [Nat.shiftRight_eq_div_pow]
  exact Nat.div_eq_of_lt (lt_of_lt_of_le hx (Nat.pow_le_pow_right (by norm_num) hk))

theorem xorShift_lt {x : Nat} (k : Nat) (hx : x < 2 ^ 32) : x ^^^ (x >>> k) < 2 ^ 32 :=
  Nat.xor_lt_two_pow hx (lt_of_le_of_lt (shiftRight_le_self x k) hx)

theorem mul_inverse_mod (x c d : Nat) (hx : x < UINT_MOD) (hcd : c * d % UINT_MOD = 1) :
    (x * c % UINT_MOD) * d % UINT_MOD = x := by
  rw [Nat.mod_mul_mod, Nat.mul_assoc, Nat.mul_mod, hcd, Nat.mul_one, Nat.mod_mod,
    Nat.mod_eq_of_lt hx]

theorem step2_eq (x : Nat) : (x + (x <<< 3) % UINT_MOD) % UINT_MOD = x * 9 % UINT_MOD := by
  rw [Nat.shiftLeft_eq]
  unfold UINT_MOD
  omega

theorem WangHashInv_WangHash (a : Nat) (ha : a < UINT_MOD) : WangHashInv (WangHash a) = a := by
  have ha32 : a < 2 ^ 32 := ha
  -- the five intermediate values of `WangHash`
  obtain ⟨a1, h1⟩ : ∃ a1, a1 = (a ^^^ 61) ^^^ (a >>> 16) := ⟨_, rfl⟩
  obtain ⟨a2, h2⟩ : ∃ a2, a2 = a1 * 9 % UINT_MOD := ⟨_, rfl⟩
  obtain ⟨a3, h3⟩ : ∃ a3, a3 = a2 ^^^ (a2 >>> 4) := ⟨_, rfl⟩
  obtain ⟨a4, h4⟩ : ∃ a4, a4 = a3 * 0x27d4eb2d % UINT_MOD := ⟨_, rfl⟩
  have b1 : a1 < 2 ^ 32 := by
    rw [h1]
    exact Nat.xor_lt_two_pow (Nat.xor_lt_two_pow ha32 (by norm_num))
      (lt_of_le_of_lt (shiftRight_le_self a 16) ha32)
  have b2 : a2 < 2 ^ 32 := by rw [h2]; exact Nat.mod_lt _ (by norm_num [UINT_MOD])
  have b3 : a3 < 2 ^ 32 := by rw [h3]; exact xorShift_lt 4 b2
  have b4 : a4 < 2 ^ 32 := by rw [h4]; exact Nat.mod_lt _ (by norm_num [UINT_MOD])
  have hW : WangHash a = a4 ^^^ (a4 >>> 15) := by
    simp only [WangHash, step2_eq, ← h1, ← h2, ← h3, ← h4]
  -- undo step 5
  have u5 : (WangHash a ^^^ (WangHash a >>> 15)) ^^^
      ((WangHash a ^^^ (WangHash a >>> 15)) >>> 30) = a4 := by
    rw [hW, xorShift_twice, xorShift_twice, shiftRight_eq_zero_of_lt b4 (by norm_num),
      Nat.xor_zero]
  -- undo step 4
  have u4 : a4 * 4218002597 % UINT_MOD = a3 := by
    rw [h4]; exact mul_inverse_mod a3 _ _ b3 (by norm_num [UINT_MOD])
  -- undo step 3
  have u3 : ((a3 ^^^ (a3 >>> 4)) ^^^ ((a3 ^^^ (a3 >>> 4)) >>> 8)) ^^^
      (((a3 ^^^ (a3 >>> 4)) ^^^ ((a3 ^^^ (a3 >>> 4)) >>> 8)) >>> 16) = a2 := by
    rw [h3, xorShift_twice, xorShift_twice, xorShift_twice,
      shiftRight_eq_zero_of_lt b2 (by norm_num), Nat.xor_zero]
  -- undo step 2
  have u2 : a2 * 954437177 % UINT_MOD = a1 := by
    rw [h2]; exact mul_inverse_mod a1 _ _ b1 (by norm_num [UINT_MOD])
  -- undo step 1
  have u1 : (a1 ^^^ 61) ^^^ (a1 >>> 16) = a := by
    have e1 : a >>> (16 + 16) = 0 := shiftRight_eq_zero_of_lt ha32 (by norm_num)
    have e2 : (61 : Nat) >>> 16 = 0 := by decide
    have hs : a1 >>> 16 = a >>> 16 := by
      rw [h1, shiftRight_xor, shiftRight_xor, ← Nat.shiftRight_add, e1, e2, Nat.xor_zero,
        Nat.xor_zero]
    rw [hs, h1]
    rw [Nat.xor_assoc a 61, Nat.xor_comm 61, ← Nat.xor_assoc a, Nat.xor_assoc (a ^^^ a >>> 16),
      Nat.xor_self, Nat.xor_zero, Nat.xor_assoc, Nat.xor_self, Nat.xor_zero]
  show WangHashInv (WangHash a) = a
  unfold WangHashInv
  simp only [u5, u4, u3, u2, u1]

theorem WangHash_lt (a : Nat) : WangHash a < UINT_MOD := by
  have hpos : 0 < UINT_MOD := by rw [UINT_MOD_eq]; norm_num
  have h4 : ∀ x, (x * 0x27d4eb2d) % UINT_MOD < 2 ^ 32 := fun x => Nat.mod_lt _ hpos
  show (_ ^^^ _ >>> 15) < 2 ^ 32
  exact xorShift_lt 15 (h4 _)

theorem WangHash_inj (a b : Nat) (ha : a < UINT_MOD) (hb : b < UINT_MOD)
    (h : WangHash a = WangHash b) : a = b := by
  rw [← WangHashInv_WangHash a ha, ← WangHashInv_WangHash b hb, h]

theorem WangHash_surj (y : Nat) (hy : y < UINT_MOD) : ∃ a, a < UINT_MOD ∧ WangHash a = y := by
  have hinj : Function.Injective
      (fun x : Fin UINT_MOD => (⟨WangHash x.val, WangHash_lt x.val⟩ : Fin UINT_MOD)) := by
    intro x x' hxx
    exact Fin.ext (WangHash_inj x.val x'.val x.isLt x'.isLt (congrArg Fin.val hxx))
  obtain ⟨x, hx⟩ := Finite.surjective_of_injective hinj ⟨y, hy⟩
  exact ⟨x.val, x.isLt, congrArg Fin.val hx⟩

/-- The counter 61 is hashed to 0: the first step xors it with 61. -/
theorem WangHash_61 : WangHash 61 = 0 := by decide

/-- C10: `WangHash` is injective on 32-bit words, maps them to 32-bit words and reaches
every one of them, so it is a bijection; hence two calls of `render` whose new
counters differ modulo `2 ^ 32` enqueue the kernel with different seeds, and so do
any two frames `j` and `k` of a run from the start state whose counters differ
modulo `2 ^ 32`. -/
theorem WangHash_injective :
    (∀ a b, a < UINT_MOD → b < UINT_MOD → WangHash a = WangHash b → a = b) ∧
    (∀ a, WangHash a < UINT_MOD) ∧
    (∀ y, y < UINT_MOD → ∃ a, a < UINT_MOD ∧ WangHash a = y) ∧
    (∀ local_work_size s t, 0 < local_work_size →
      (s.framenumber + 1) % UINT_MOD ≠ (t.framenumber + 1) % UINT_MOD →
      ∃ s' t' x y, render local_work_size s = some s' ∧ render local_work_size t = some t' ∧
        dispatchedSeeds s'.log = dispatchedSeeds s.log ++ [some (KernelArg.uint x)] ∧
        dispatchedSeeds t'.log = dispatchedSeeds t.log ++ [some (KernelArg.uint y)] ∧
        x ≠ y) ∧
    (∀ local_work_size n j k, 0 < local_work_size → 1 ≤ j → j ≤ n → 1 ≤ k → k ≤ n →
      j % UINT_MOD ≠ k % UINT_MOD →
      ∃ sn x y, renderFrames local_work_size n startState = some sn ∧
        (dispatchedSeeds sn.log)[j - 1]? = some (some (KernelArg.uint x)) ∧
        (dispatchedSeeds sn.log)[k - 1]? = some (some (KernelArg.uint y)) ∧
        x ≠ y) := by
  have hpos : 0 < UINT_MOD := by rw [UINT_MOD_eq]; norm_num
  refine ⟨WangHash_inj, WangHash_lt, WangHash_surj, ?_, ?_⟩
  · intro lws s t hl hne
    obtain ⟨gs, hs⟩ := render_some lws s hl
    obtain ⟨gt, ht⟩ := render_some lws t hl
    refine ⟨_, _, _, _, hs, ht, dispatchedSeeds_frameState _ _ _,
      dispatchedSeeds_frameState _ _ _, ?_⟩
    intro h
    exact hne (WangHash_inj _ _ (Nat.mod_lt _ hpos) (Nat.mod_lt _ hpos) h)
  · intro lws n j k hl hj1 hjn hk1 hkn hne
    obtain ⟨sn, h1, _, h3⟩ := renderFrames_seeds lws hl n startState
      (by rw [startState_framenumber]; exact hpos)
    rw [startState_seeds, List.nil_append] at h3
    simp only [startState_framenumber, Nat.zero_add] at h3
    have hj : j - 1 + 1 = j := by omega
    have hk : k - 1 + 1 = k := by omega
    refine ⟨sn, WangHash (j % UINT_MOD), WangHash (k % UINT_MOD), h1, ?_, ?_, ?_⟩
    · rw [h3, List.getElem?_map, List.getElem?_range (by omega)]
      simp only [Option.map_some', hj]
    · rw [h3, List.getElem?_map, List.getElem?_range (by omega)]
      simp only [Option.map_some', hk]
    · intro h
      exact hne (WangHash_inj _ _ (Nat.mod_lt _ hpos) (Nat.mod_lt _ hpos) h)

/-- Concrete instance: the counters 1 and 2 hash to different seeds. -/
theorem WangHash_injective_witness : WangHash 1 ≠ WangHash 2 :=
  fun h => absurd (WangHash_injective.1 1 2 (by decide) (by decide) h) (by decide)

/-! ## Interactive selection -/

theorem toSizeT_of_nonneg (x : Int) (h0 : 0 ≤ x) (h1 : x ≤ INT_MAX) : toSizeT x = x.toNat := by
  unfold toSizeT
  have hx : x ≤ 2147483647 := by simpa [INT_MAX] using h1
  have hm : ((SIZE_MOD : Nat) : Int) = 18446744073709551616 := by
    rw [SIZE_MOD_eq]; norm_num
  rw [hm, Int.emod_eq_of_lt h0 (by omega)]

/-- With fewer than `INT_MAX` candidates the loop condition rejects exactly the
entries that do not name a candidate. -/
theorem noSuchOption_cinRead (n : Nat) (hn : (n : Int) < INT_MAX) (entry : Option Int) :
    noSuchOption n (cinRead entry) = !validEntry n entry := by
  have hn' : (n : Int) < 2147483647 := by simpa [INT_MAX] using hn
  cases entry with
  | none => simp [noSuchOption, cinRead, validEntry]
  | some v =>
    by_cases hlo : v < INT_MIN
    · have hv : v < -2147483648 := by simpa [INT_MIN] using hlo
      have h1 : ¬ (1 ≤ v) := by omega
      simp [noSuchOption, cinRead, validEntry, hlo, h1]
      left
      norm_num [INT_MIN]
    · by_cases hhi : INT_MAX < v
      · have hv : 2147483647 < v := by simpa [INT_MAX] using hhi
        have h2 : ¬ (v ≤ (n : Int)) := by omega
        have hs : toSizeT INT_MAX = 2147483647 := by
          rw [toSizeT_of_nonneg INT_MAX (by norm_num [INT_MAX]) (le_refl _)]
          decide
        simp [noSuchOption, cinRead, validEntry, hlo, hhi, h2, hs]
        right
        omega
      · have hv1 : v ≤ 2147483647 := by
          have := not_lt.mp hhi
          simpa [INT_MAX] using this
        by_cases h1 : v < 1
        · have h1' : ¬ (1 ≤ v) := by omega
          simp [noSuchOption, cinRead, validEntry, hlo, hhi, h1, h1']
        · have h1' : 1 ≤ v := by omega
          have hs : toSizeT v = v.toNat :=
            toSizeT_of_nonneg v (by omega) (not_lt.mp hhi)
          by_cases h2 : v ≤ (n : Int)
          · have : ¬ (n < v.toNat) := by omega
            simp [noSuchOption, cinRead, validEntry, hlo, hhi, h1, h1', hs, h2, this]
          · have : n < v.toNat := by omega
            simp [noSuchOption, cinRead, validEntry, hlo, hhi, h1, h1', hs, h2, this]

/-- The loop stops at the first entry that names a candidate, leaving the entries
after it unread; it does not stop if there is none. -/
theorem retryLoop_eq (n : Nat) (hn : (n : Int) < INT_MAX) (entry : Option Int)
    (cin : List (Option Int)) :
    retryLoop n (cinRead entry) cin =
      ((entry :: cin).find? (validEntry n)).map (fun accepted =>
        (cinRead accepted, ((entry :: cin).dropWhile (fun e => !validEntry n e)).tail)) := by
  induction cin generalizing entry with
  | nil =>
    by_cases hv : validEntry n entry = true
    · simp [retryLoop, noSuchOption_cinRead n hn, hv, List.find?, List.dropWhile]
    · simp [retryLoop, noSuchOption_cinRead n hn, hv, List.find?, List.dropWhile]
  | cons next rest ih =>
    by_cases hv : validEntry n entry = true
    · simp [retryLoop, noSuchOption_cinRead n hn, hv, List.find?, List.dropWhile]
    · have hv' : validEntry n entry = false := by simpa using hv
      rw [retryLoop, noSuchOption_cinRead n hn, hv', ih next]
      simp [List.find?, List.dropWhile, hv']

theorem pickDevice_eq {Device : Type} (devices : List Device) (cin : List (Option Int))
    (h1 : devices.length ≠ 1) (hn : (devices.length : Int) < INT_MAX) :
    pickDevice devices cin =
      (cin.find? (validEntry devices.length)).bind (fun accepted =>
        (devices[toSizeT (cinRead accepted - 1)]?).map (fun device =>
          (device, (cin.dropWhile (fun e => !validEntry devices.length e)).tail))) := by
  unfold pickDevice
  rw [if_neg h1]
  cases cin with
  | nil => rfl
  | cons entry rest =>
    simp only [retryLoop_eq devices.length hn entry rest]
    cases (entry :: rest).find? (validEntry devices.length) <;> rfl

theorem pickPlatform_eq {Platform : Type} (platforms : List Platform) (cin : List (Option Int))
    (h1 : platforms.length ≠ 1) (hn : (platforms.length : Int) < INT_MAX) :
    pickPlatform platforms cin =
      (cin.find? (validEntry platforms.length)).bind (fun accepted =>
        (platforms[toSizeT (cinRead accepted - 1)]?).map (fun platform =>
          (platform, (cin.dropWhile (fun e => !validEntry platforms.length e)).tail))) := by
  unfold pickPlatform
  rw [if_neg h1]
  cases cin with
  | nil => rfl
  | cons entry rest =>
    simp only [retryLoop_eq platforms.length hn entry rest]
    cases (entry :: rest).find? (validEntry platforms.length) <;> rfl

/-- An entry that names one of `n < INT_MAX` candidates is a number `k` in `1..n`; it is
stored unchanged and `k - 1` converts to the index `k - 1` below `n`. -/
theorem validEntry_index (n : Nat) (hn : (n : Int) < INT_MAX) (entry : Option Int)
    (hv : validEntry n entry = true) :
    ∃ k : Int, entry = some k ∧ 1 ≤ k ∧ k ≤ n ∧ cinRead entry = k ∧
      toSizeT (k - 1) = (k - 1).toNat ∧ (k - 1).toNat < n := by
  have hn' : (n : Int) < 2147483647 := by simpa [INT_MAX] using hn
  cases entry with
  | none => simp [validEntry] at hv
  | some k =>
    simp only [validEntry, Bool.and_eq_true, decide_eq_true_eq] at hv
    have hlo : ¬ k < INT_MIN := by
      have : ¬ k < -2147483648 := by omega
      simpa [INT_MIN] using this
    have hhi : ¬ INT_MAX < k := by
      have : ¬ 2147483647 < k := by omega
      simpa [INT_MAX] using this
    refine ⟨k, rfl, hv.1, hv.2, by simp [cinRead, hlo, hhi], ?_, by omega⟩
    apply toSizeT_of_nonneg (k - 1) (by omega)
    have : k - 1 ≤ 2147483647 := by omega
    simpa [INT_MAX] using this

/-- C4: for every candidate list with at least two entries (and fewer than `INT_MAX`,
the range of the `int` that holds the operator's choice) and every sequence of
operator entries (numbers, or `none` for an entry that is not a number) that
contains a number in `1..n`, `pickDevice` and `pickPlatform` return: they select
the candidate at the 1-based position given by the first entry `k` in `1..n`,
the index `k - 1` lies inside the list, every earlier entry is discarded and
the entries after `k` are left unread. With exactly one candidate they select
it and leave all entries unread. With the entries 0, 999, 2 and two candidates
they select the second candidate. -/
theorem pick_selects_first_valid {Candidate : Type} (candidates : List Candidate)
    (cin : List (Option Int)) (h2 : 2 ≤ candidates.length)
    (hint : (candidates.length : Int) < INT_MAX)
    (hvalid : ∃ entry ∈ cin, validEntry candidates.length entry = true) :
    (∃ (k : Int) (chosen : Candidate),
      cin.find? (validEntry candidates.length) = some (some k) ∧
      1 ≤ k ∧ k ≤ candidates.length ∧
      candidates[(k - 1).toNat]? = some chosen ∧
      pickDevice candidates cin = some (chosen,
        (cin.dropWhile (fun entry => !validEntry candidates.length entry)).tail) ∧
      pickPlatform candidates cin = some (chosen,
        (cin.dropWhile (fun entry => !validEntry candidates.length entry)).tail)) ∧
    (∀ (only : Candidate) (entries : List (Option Int)),
      pickDevice [only] entries = some (only, entries) ∧
      pickPlatform [only] entries = some (only, entries)) ∧
    pickDevice ["first", "second"] [some 0, some 999, some 2] = some ("second", []) ∧
    pickPlatform ["first", "second"] [some 0, some 999, some 2] = some ("second", []) := by
  refine ⟨?_, fun only entries => ⟨rfl, rfl⟩, by decide, by decide⟩
  have h1 : candidates.length ≠ 1 := by omega
  obtain ⟨entry, hmem, hv⟩ := hvalid
  cases hfind : cin.find? (validEntry candidates.length) with
  | none =>
    rw [List.find?_eq_none] at hfind
    exact absurd hv (hfind entry hmem)
  | some accepted =>
    have hacc : validEntry candidates.length accepted = true := List.find?_some hfind
    obtain ⟨k, hk, hk1, hkn, hread, hconv, hidx⟩ :=
      validEntry_index candidates.length hint accepted hacc
    have hget : candidates[(k - 1).toNat]? = some (candidates[(k - 1).toNat]) :=
      List.getElem?_eq_getElem hidx
    refine ⟨k, candidates[(k - 1).toNat], by rw [hk], hk1, hkn, hget, ?_, ?_⟩
    · rw [pickDevice_eq candidates cin h1 hint, hfind]
      simp only [Option.some_bind, hread, hconv, hget, Option.map_some']
    · rw [pickPlatform_eq candidates cin h1 hint, hfind]
      simp only [Option.some_bind, hread, hconv, hget, Option.map_some']

/-- Concrete instance: two candidates and the entries 0, a
non-number, 999, 2, 1; the second candidate is selected and the last entry is
left unread. -/
theorem pick_selects_first_valid_witness :
    (2 ≤ ["first", "second"].length ∧ ((["first", "second"].length : Nat) : Int) < INT_MAX ∧
      ∃ entry ∈ [some 0, none, some 999, some 2, some 1],
        validEntry ["first", "second"].length entry = true) ∧
    ∃ (k : Int) (chosen : String),
      [some 0, none, some 999, some 2, some 1].find? (validEntry ["first", "second"].length) =
        some (some k) ∧
      1 ≤ k ∧ k ≤ ["first", "second"].length ∧
      ["first", "second"][(k - 1).toNat]? = some chosen ∧
      pickDevice ["first", "second"] [some 0, none, some 999, some 2, some 1] = some (chosen,
        ([some 0, none, some 999, some 2, some 1].dropWhile
          (fun entry => !validEntry ["first", "second"].length entry)).tail) ∧
      pickPlatform ["first", "second"] [some 0, none, some 999, some 2, some 1] = some (chosen,
        ([some 0, none, some 999, some 2, some 1].dropWhile
          (fun entry => !validEntry ["first", "second"].length entry)).tail) :=
  ⟨⟨by decide, by decide, ⟨some 2, by decide, by decide⟩⟩,
    (pick_selects_first_valid ["first", "second"] [some 0, none, some 999, some 2, some 1]
      (by decide) (by decide) ⟨some 2, by decide, by decide⟩).1⟩

/-- C5 (what the code does): on an empty device list `pickDevice` never returns,
whatever the operator enters: the list has no single element to auto-select,
every entry is rejected by the loop condition, and no result (neither a device
nor an error) is produced. -/
theorem pickDevice_empty_never_returns {Device : Type} (cin : List (Option Int)) :
    pickDevice ([] : List Device) cin = none ∧
    (∀ entry, noSuchOption 0 (cinRead entry) = true) := by
  have hn : ((([] : List Device).length : Nat) : Int) < INT_MAX := by
    show ((0 : Nat) : Int) < INT_MAX
    decide
  have hno : ∀ entry, validEntry 0 entry = false := by
    intro entry
    cases entry with
    | none => rfl
    | some v =>
      by_cases h : 1 ≤ v
      · have : ¬ v ≤ 0 := by omega
        simp [validEntry, h, this]
      · simp [validEntry, h]
  constructor
  · rw [pickDevice_eq [] cin (by simp) hn]
    have : cin.find? (validEntry ([] : List Device).length) = none := by
      rw [List.find?_eq_none]
      intro x _
      simp [hno x]
    rw [this]
    rfl
  · intro entry
    rw [noSuchOption_cinRead 0 (by decide) entry, hno entry]
    rfl

/-! ## Loading the kernel source -/

/-- Once `failbit` is set and `eofbit` is not, every further `getline` leaves the
stream as it is, `eof()` stays false and the loop never exits. -/
theorem readLoop_failed (fuel : Nat) (content source : List Char) :
    readLoop fuel { content := content, eofbit := false, failbit := true } source = none := by
  induction fuel generalizing source with
  | zero => rfl
  | succ fuel ih =>
    simp only [readLoop, getline, Bool.false_or, if_true, Bool.false_eq_true, if_false]
    exact ih _

/-- A first line longer than the buffer fills it: `getline` stops with `full` set
and without reaching the end of the file. -/
theorem extractLine_full (room : Nat) (content : List Char)
    (h : room < (content.takeWhile (fun c => c != '\n')).length) :
    (extractLine room content).full = true ∧ (extractLine room content).eof = false := by
  induction content generalizing room with
  | nil => simp at h
  | cons c rest ih =>
    by_cases hc : c = '\n'
    · simp [hc] at h
    · have hlen : (List.takeWhile (fun c => c != '\n') (c :: rest)).length =
          (List.takeWhile (fun c => c != '\n') rest).length + 1 := by
        have hc' : (c != '\n') = true := by simp [hc]
        rw [List.takeWhile_cons, if_pos hc', List.length_cons]
      cases room with
      | zero => simp [extractLine, hc]
      | succ room =>
        have := ih room (by omega)
        simp [extractLine, hc, this]

theorem loadKernelSource_diverges (content : List Char)
    (h : 255 ≤ (content.takeWhile (fun c => c != '\n')).length) (fuel : Nat) :
    loadKernelSource fuel content = none := by
  cases fuel with
  | zero => rfl
  | succ fuel =>
    obtain ⟨hfull, heof⟩ := extractLine_full 254 content (by omega)
    simp only [loadKernelSource, openFile, readLoop, getline, Bool.false_or,
      Bool.false_eq_true, if_false, hfull, heof, Bool.true_or]
    exact readLoop_failed _ _ _

/-- C7 (what the code does): on a file that consists of one line of 255 characters
the reading loop never exits, whatever the number of iterations allowed: the
first `getline` stores 254 characters and sets `failbit`, and from then on
`eof()` stays false. The same holds for every file whose first line has 255
characters or more. -/
theorem loadKernelSource_long_line_never_returns (fuel : Nat) :
    loadKernelSource fuel (List.replicate 255 'a') = none ∧
    getline (openFile (List.replicate 255 'a')) 255 =
      (List.replicate 254 'a', { content := ['a'], eofbit := false, failbit := true }) ∧
    (∀ content : List Char, 255 ≤ (content.takeWhile (fun c => c != '\n')).length →
      loadKernelSource fuel content = none) := by
  refine ⟨?_, by decide!, fun content h => loadKernelSource_diverges content h fuel⟩
  exact loadKernelSource_diverges _ (by decide!) fuel

theorem stripLineTerminators_cons_newline (rest : List Char) :
    stripLineTerminators ('\n' :: rest) = stripLineTerminators rest := by
  simp [stripLineTerminators]

theorem stripLineTerminators_cons_other (c : Char) (rest : List Char) (hc : c ≠ '\n') :
    stripLineTerminators (c :: rest) = c :: stripLineTerminators rest := by
  simp [stripLineTerminators, List.filter_cons, hc]

theorem extractLine_newline (room : Nat) (rest : List Char) :
    extractLine room ('\n' :: rest) =
      { stored := [], rest := rest, eof := false, full := false, count := 1 } := by
  cases room <;> simp [extractLine]

theorem extractLine_other (room : Nat) (c : Char) (rest : List Char) (hc : c ≠ '\n') :
    extractLine (room + 1) (c :: rest) =
      { extractLine room rest with
        stored := c :: (extractLine room rest).stored,
        count := (extractLine room rest).count + 1 } := by
  simp [extractLine, hc]

/-- On a content whose lines fit the buffer, the extraction loop of `getline` stores
the first line whole and never fills the buffer; it stops either at the end of
the file, or behind a line terminator with a strictly shorter rest. -/
theorem extractLine_fit (limit : Nat) (content : List Char) (room : Nat)
    (hfit : linesFit limit room content = true) :
    (extractLine room content).full = false ∧
    (∀ c ∈ (extractLine room content).stored, c ∈ content) ∧
    (∀ c ∈ (extractLine room content).rest, c ∈ content) ∧
    ((extractLine room content).eof = true →
      stripLineTerminators content = (extractLine room content).stored) ∧
    ((extractLine room content).eof = false →
      0 < (extractLine room content).count ∧
      (extractLine room content).rest.length < content.length ∧
      linesFit limit limit (extractLine room content).rest = true ∧
      stripLineTerminators content = (extractLine room content).stored ++
        stripLineTerminators (extractLine room content).rest) := by
  induction content generalizing room with
  | nil => simp [extractLine, stripLineTerminators]
  | cons c rest ih =>
    by_cases hc : c = '\n'
    · subst hc
      have hfit' : linesFit limit limit rest = true := by
        cases room <;> simpa [linesFit] using hfit
      rw [extractLine_newline, stripLineTerminators_cons_newline]
      refine ⟨rfl, ?_, ?_, ?_, ?_⟩
      · intro x hx
        simp at hx
      · intro x hx
        exact List.mem_cons_of_mem _ hx
      · intro h
        simp at h
      · intro _
        exact ⟨Nat.one_pos, by simp, hfit', by simp⟩
    · cases room with
      | zero => simp [linesFit, hc] at hfit
      | succ room =>
        have hfit' : linesFit limit room rest = true := by simpa [linesFit, hc] using hfit
        obtain ⟨h1, h2, h3, h4, h5⟩ := ih room hfit'
        rw [extractLine_other room c rest hc, stripLineTerminators_cons_other c rest hc]
        refine ⟨h1, ?_, ?_, ?_, ?_⟩
        · intro x hx
          simp only [List.mem_cons] at hx ⊢
          rcases hx with hx | hx
          · exact Or.inl hx
          · exact Or.inr (h2 x hx)
        · intro x hx
          exact List.mem_cons_of_mem _ (h3 x hx)
        · intro heof
          show c :: stripLineTerminators rest = c :: (extractLine room rest).stored
          rw [h4 heof]
        · intro heof
          obtain ⟨_, h52, h53, h54⟩ := h5 heof
          refine ⟨Nat.succ_pos _, ?_, h53, ?_⟩
          · show (extractLine room rest).rest.length < (c :: rest).length
            simp only [List.length_cons]
            omega
          · show c :: stripLineTerminators rest =
              (c :: (extractLine room rest).stored) ++
                stripLineTerminators (extractLine room rest).rest
            rw [h54, List.cons_append]

theorem cString_eq_self (line : List Char) (h : ∀ c ∈ line, c ≠ Char.ofNat 0) :
    cString line = line := by
  unfold cString
  rw [List.takeWhile_eq_self_iff]
  intro c hc
  simpa using h c hc

/-- On a file without null characters whose lines all have at most 254 characters the
reading loop exits, within `content.length + 2` iterations, and the source string
is the file content without its line terminators. -/
theorem readLoop_fit (fuel : Nat) (content source : List Char)
    (hfit : linesFit 254 254 content = true) (hnul : ∀ c ∈ content, c ≠ Char.ofNat 0)
    (hfuel : content.length + 2 ≤ fuel) :
    readLoop fuel { content := content, eofbit := false, failbit := false } source =
      some (source ++ stripLineTerminators content) := by
  induction fuel generalizing content source with
  | zero => omega
  | succ fuel ih =>
    obtain ⟨h1, h2, h3, h4, h5⟩ := extractLine_fit 254 content 254 hfit
    have hstored : cString (extractLine 254 content).stored = (extractLine 254 content).stored :=
      cString_eq_self _ (fun c hc => hnul c (h2 c hc))
    simp only [readLoop, getline, Bool.false_or, Bool.false_eq_true, if_false, h1, hstored]
    cases heof : (extractLine 254 content).eof with
    | true =>
      cases fuel with
      | zero => omega
      | succ fuel =>
        simp only [readLoop, if_true]
        rw [h4 heof]
    | false =>
      obtain ⟨hcount, hlen, hfit', hstrip⟩ := h5 heof
      have hne : ((extractLine 254 content).count == 0) = false := by
        simp only [beq_eq_false_iff_ne, ne_eq]
        omega
      rw [hne]
      have := ih (extractLine 254 content).rest (source ++ (extractLine 254 content).stored)
        hfit' (fun c hc => hnul c (h3 c hc)) (by omega)
      simp only [Nat.add_one_sub_one] at this ⊢
      rw [this, hstrip, List.append_assoc]

/-- The source string is the whole file without its line terminators when the file
holds no null character and no line longer than 254 characters. -/
theorem loadKernelSource_short_lines (fuel : Nat) (content : List Char)
    (hfit : linesFit 254 254 content = true) (hnul : ∀ c ∈ content, c ≠ Char.ofNat 0)
    (hfuel : content.length + 2 ≤ fuel) :
    loadKernelSource fuel content = some (stripLineTerminators content) := by
  have := readLoop_fit fuel content [] hfit hnul hfuel
  simpa [loadKernelSource, openFile] using this

/-- A file of three short lines, the last one without terminator, is read whole. -/
theorem loadKernelSource_three_lines :
    loadKernelSource 30 "__kernel\nvoid f()\n;".toList = some "__kernelvoid f();".toList :=
  (loadKernelSource_short_lines 30 "__kernel\nvoid f()\n;".toList (by decide) (by decide)
    (by decide)).trans (by decide)

end PathTracer
